import Mathlib

/-!
# `dynmem.hpp`: the buffer `DynMem_<T>` and the matrix view `MatDynMem`

A shallow embedding of `src/dynmem.hpp`.

* Pointers are natural numbers, `0` is `nullptr`.  The heap maps the base address of
  each live allocation to its cells; a cell is `none` while its value is indeterminate
  (storage fresh from `new T[n]` / `cudaHostAlloc`).
* Buffer objects live in an object store indexed by their identity, so that two
  references to the same object (`b = std::move(b)`) are expressible.
* Byte counts `n * sizeof(T)` handed to the allocator and to `memcpy` are counted in
  elements of `T`.
* `int` is 32 bit two's complement and `size_t` is 64 bit.  Signed overflow, which the
  language leaves undefined, wraps as it does in the compiled code; the theorems that
  speak about `int` products assume that no such overflow happens.
* A memory fault (use of a pointer that is null or not live, an out-of-bounds or
  overlapping `memcpy`, an out-of-bounds read) is `Fault.undefined`; a failed `assert`
  (debug build) is `Fault.assertion`; a failed allocation is `Fault.alloc`.
* The OpenCV macros and the `cv::Mat` header come from OpenCV, not from this header:
  the macros are a parameter (`CvDefs`), `cv::Mat` is its header fields.
-/

namespace Kcf

/-- A machine address; `0` is `nullptr`. -/
abbrev Ptr := Nat

/-- The ways an operation can end without a result. -/
inductive Fault where
  | alloc
  | assertion
  | undefined
deriving DecidableEq, Repr

/-- The data members of `DynMem_<T>`: `ptr_h`, `ptr_d` (only under `CUFFT`; it stays `0`
in the plain build, where the member does not exist) and `num_elem`. -/
structure DynMem_ where
  ptr_h : Ptr
  ptr_d : Ptr
  num_elem : Nat
deriving DecidableEq, Repr

/-- The cells of one allocation. -/
abbrev Block (α : Type) := List (Option α)

/-- Program state: the live allocations by base address and the live buffer objects by
identity. -/
structure World (α : Type) where
  heap : Ptr → Option (Block α)
  objs : Nat → Option DynMem_

/-- The state before anything is allocated or constructed. -/
def World.empty (α : Type) : World α := ⟨fun _ => none, fun _ => none⟩

/-- The members of object `o` (all zero when `o` is not live). -/
def World.obj {α : Type} (w : World α) (o : Nat) : DynMem_ :=
  (w.objs o).getD ⟨0, 0, 0⟩

/-- Assignment `o.ptr_h = p`. -/
def World.setPtrH {α : Type} (w : World α) (o : Nat) (p : Ptr) : World α :=
  { w with objs := Function.update w.objs o (some { w.obj o with ptr_h := p }) }

/-- Assignment `o.ptr_d = p`. -/
def World.setPtrD {α : Type} (w : World α) (o : Nat) (p : Ptr) : World α :=
  { w with objs := Function.update w.objs o (some { w.obj o with ptr_d := p }) }

/-- Constructor `DynMem_(size_t num_elem)`: the object `this` is created, `p` is the
address the allocator returns for `num_elem` elements and `d` the device address of the
same pages (`CUFFT` build).  The allocator never hands out null or a live address; a request it
cannot satisfy is fatal. -/
def DynMem_.ctor {α : Type} (cufft : Bool) (this : Nat) (p d : Ptr) (num_elem : Nat)
    (w : World α) : Except Fault (World α) :=
  if (w.objs this).isSome then .error .undefined
  else if p = 0 ∨ (w.heap p).isSome ∨ (cufft = true ∧ d = 0) then .error .alloc
  else .ok
    { heap := Function.update w.heap p (some (List.replicate num_elem none))
      objs := Function.update w.objs this (some ⟨p, if cufft then d else 0, num_elem⟩) }

/-- Move constructor `DynMem_(DynMem_&& other)`: `ptr_h` (and `ptr_d`) are taken from
`other` and nulled there.  `num_elem` is not initialised by this constructor: it holds
an indeterminate value `junk`.  The class has no copy constructor (it is deleted by the
declaration of this one). -/
def DynMem_.moveCtor {α : Type} (cufft : Bool) (this other : Nat) (junk : Nat)
    (w : World α) : Except Fault (World α) :=
  if (w.objs this).isSome ∨ (w.objs other).isNone then .error .undefined
  else
    let w0 : World α := { w with objs := Function.update w.objs this (some ⟨0, 0, junk⟩) }
    let w1 := w0.setPtrH this (w0.obj other).ptr_h
    let w2 := w1.setPtrH other 0
    if cufft then
      let w3 := w2.setPtrD this (w2.obj other).ptr_d
      .ok (w3.setPtrD other 0)
    else .ok w2

/-- Destructor `~DynMem_()`: `delete[] ptr_h` / `cudaFreeHost(ptr_h)`.  Releasing null
does nothing (`cudaFreeHost` is taken to behave like `delete[]` there), releasing an
address that is not a live allocation is a fault.  The object is gone afterwards. -/
def DynMem_.dtor {α : Type} (this : Nat) (w : World α) : Except Fault (World α) :=
  match w.objs this with
  | none => .error .undefined
  | some b =>
    if b.ptr_h = 0 then .ok { w with objs := Function.update w.objs this none }
    else if (w.heap b.ptr_h).isSome then
      .ok { heap := Function.update w.heap b.ptr_h none
            objs := Function.update w.objs this none }
    else .error .undefined

/-- Accessor `T *hostMem()`. -/
def DynMem_.hostMem {α : Type} (this : Nat) (w : World α) : Ptr := (w.obj this).ptr_h

/-- Accessor `T *deviceMem()` (`CUFFT` build). -/
def DynMem_.deviceMem {α : Type} (this : Nat) (w : World α) : Ptr := (w.obj this).ptr_d

/-- The call `memcpy(dst, src, n * sizeof(T))`: both ranges must lie inside live
allocations and must not overlap. -/
def memcpy {α : Type} (dst src : Ptr) (n : Nat) (heap : Ptr → Option (Block α)) :
    Except Fault (Ptr → Option (Block α)) :=
  if dst = 0 ∨ src = 0 ∨ (dst = src ∧ 0 < n) then .error .undefined
  else
    match heap dst, heap src with
    | some bd, some bs =>
      if n ≤ bd.length ∧ n ≤ bs.length then
        .ok (Function.update heap dst (some (bs.take n ++ bd.drop n)))
      else .error .undefined
    | _, _ => .error .undefined

/-- Copy assignment `void operator=(DynMem_ &rhs)`:
`memcpy(ptr_h, rhs.ptr_h, num_elem * sizeof(T))` with the `num_elem` of `this`. -/
def DynMem_.copyAssign {α : Type} (this rhs : Nat) (w : World α) : Except Fault (World α) :=
  if (w.objs this).isNone ∨ (w.objs rhs).isNone then .error .undefined
  else
    match memcpy (w.obj this).ptr_h (w.obj rhs).ptr_h (w.obj this).num_elem w.heap with
    | .ok heap => .ok { w with heap := heap }
    | .error e => .error e

/-- Move assignment `void operator=(DynMem_ &&rhs)`: statement by statement
`ptr_h = rhs.ptr_h; rhs.ptr_h = nullptr;` and the same for `ptr_d` under `CUFFT`.
Nothing is released and `num_elem` is not touched. -/
def DynMem_.moveAssign {α : Type} (cufft : Bool) (this rhs : Nat) (w : World α) :
    Except Fault (World α) :=
  if (w.objs this).isNone ∨ (w.objs rhs).isNone then .error .undefined
  else
    let w1 := w.setPtrH this (w.obj rhs).ptr_h
    let w2 := w1.setPtrH rhs 0
    if cufft then
      let w3 := w2.setPtrD this (w2.obj rhs).ptr_d
      .ok (w3.setPtrD rhs 0)
    else .ok w2

/-- Element access `T operator[](uint i) const`: `ptr_h[i]`. -/
def DynMem_.index {α : Type} (this : Nat) (i : Nat) (w : World α) : Except Fault α :=
  match w.heap (w.obj this).ptr_h with
  | some b =>
    match b[i]? with
    | some (some v) => .ok v
    | _ => .error .undefined
  | none => .error .undefined

/-- A store `p[i] = v` through a host pointer. -/
def store {α : Type} (p : Ptr) (i : Nat) (v : α) (w : World α) : Except Fault (World α) :=
  match w.heap p with
  | some b =>
    if p ≠ 0 ∧ i < b.length then
      .ok { w with heap := Function.update w.heap p (some (b.set i (some v))) }
    else .error .undefined
  | none => .error .undefined

/-- Result of an `int` operation: 32 bit two's complement. -/
def wrapInt (x : Int) : Int := (x + 2147483648) % 4294967296 - 2147483648

/-- Conversion of an `int` to `size_t` (64 bit, modulo `2^64`). -/
def toSizeT (x : Int) : Nat := (x % 18446744073709551616).toNat

/-- Product of two `size_t` values. -/
def mulSizeT (a b : Nat) : Nat := (a * b) % 18446744073709551616

/-- The value of `sizeof(DynMem::type)`, the size of a `float`. -/
def sizeofFloat : Nat := 4

/-- The OpenCV macros the header uses; they are defined by OpenCV, not by this header. -/
structure CvDefs where
  CV_MAT_CN : Int → Int
  CV_MAT_DEPTH_MASK : Int
  CV_32F : Int

/-- The macros as OpenCV 2 to 4 define them: `CV_CN_SHIFT = 3`, `CV_CN_MAX = 512`,
`CV_MAT_CN(flags) = (((flags) & CV_MAT_CN_MASK) >> CV_CN_SHIFT) + 1`,
`CV_MAT_DEPTH_MASK = 7`, `CV_32F = 5`. -/
def opencv : CvDefs where
  CV_MAT_CN := fun flags => (Int.land flags 4088 >>> 3) + 1
  CV_MAT_DEPTH_MASK := 7
  CV_32F := 5

/-- The type `cv::Size`. -/
structure Size where
  width : Int
  height : Int
deriving DecidableEq, Repr

/-- Method `cv::Size::area()`: `width * height` in `int`. -/
def Size.area (s : Size) : Int := wrapInt (s.width * s.height)

/-- The `cv::Mat` header: the extents, the element type and the data pointer. -/
structure Mat where
  sizes : List Int
  type : Int
  data : Ptr
deriving DecidableEq, Repr

/-- Method `cv::Mat::total()`: the number of array elements, the product of the extents as a
`size_t`; channels are not counted. -/
def Mat.total (m : Mat) : Nat :=
  m.sizes.foldl (fun acc s => mulSizeT acc (toSizeT s)) 1

/-- A read `p[i]` through a pointer. -/
def load {α : Type} (p : Ptr) (i : Nat) (w : World α) : Except Fault α :=
  match w.heap p with
  | some b =>
    match b[i]? with
    | some (some v) => .ok v
    | _ => .error .undefined
  | none => .error .undefined

/-- A constructed `MatDynMem`: the identity of its `DynMem` base and its `cv::Mat` base. -/
structure MatDynMem where
  dyn : Nat
  mat : Mat
deriving DecidableEq, Repr

/-- The loop of `volume`: `k` iterations are left, the index is `i`. -/
def MatDynMem.volumeFrom (sizes : List Int) : Nat → Nat → Int → Except Fault Int
  | 0, _, vol => .ok vol
  | k + 1, i, vol =>
    match sizes[i]? with
    | some s => MatDynMem.volumeFrom sizes k (i + 1) (wrapInt (vol * s))
    | none => .error .undefined

/-- Helper `static int volume(int ndims, const int *sizes)`: `vol = 1`, then `vol *= sizes[i]`
for `i = 0 .. ndims - 1`.  `sizes` is the array behind the pointer. -/
def MatDynMem.volume (ndims : Int) (sizes : List Int) : Except Fault Int :=
  MatDynMem.volumeFrom sizes ndims.toNat 0 1

/-- Base-class initialisation followed by the constructor body: the `DynMem` base is
constructed with `n` elements, then the `cv::Mat` base from `hdr` (which may use
`hostMem()`), then `check` is asserted. -/
def MatDynMem.init {α : Type} (cufft : Bool) (this : Nat) (p d : Ptr) (n : Nat)
    (hdr : Ptr → Mat) (check : Bool) (w : World α) : Except Fault (World α × MatDynMem) :=
  match DynMem_.ctor cufft this p d n w with
  | .error e => .error e
  | .ok w1 =>
    if check then .ok (w1, ⟨this, hdr (DynMem_.hostMem this w1)⟩) else .error .assertion

/-- The argument `size.area() * CV_MAT_CN(type)` of the `DynMem` base. -/
def MatDynMem.countSize (cv : CvDefs) (size : Size) (type : Int) : Nat :=
  toSizeT (wrapInt (size.area * cv.CV_MAT_CN type))

/-- Constructor `MatDynMem(cv::Size size, int type)`. -/
def MatDynMem.ctorSize {α : Type} (cv : CvDefs) (cufft : Bool) (this : Nat) (p d : Ptr)
    (size : Size) (type : Int) (w : World α) : Except Fault (World α × MatDynMem) :=
  MatDynMem.init cufft this p d (MatDynMem.countSize cv size type)
    (fun hostMem => ⟨[size.height, size.width], type, hostMem⟩)
    (decide (Int.land type cv.CV_MAT_DEPTH_MASK = cv.CV_32F)) w

/-- The argument `width * height * sizeof(DynMem::type) * CV_MAT_CN(type)` of the
`DynMem` base: the `int` product `width * height` is converted to `size_t` by the
multiplication with `sizeof`. -/
def MatDynMem.countHW (cv : CvDefs) (height width : Int) (type : Int) : Nat :=
  mulSizeT (mulSizeT (toSizeT (wrapInt (width * height))) sizeofFloat)
    (toSizeT (cv.CV_MAT_CN type))

/-- Constructor `MatDynMem(int height, int width, int type)`. -/
def MatDynMem.ctorHW {α : Type} (cv : CvDefs) (cufft : Bool) (this : Nat) (p d : Ptr)
    (height width : Int) (type : Int) (w : World α) : Except Fault (World α × MatDynMem) :=
  MatDynMem.init cufft this p d (MatDynMem.countHW cv height width type)
    (fun hostMem => ⟨[height, width], type, hostMem⟩)
    (decide (Int.land type cv.CV_MAT_DEPTH_MASK = cv.CV_32F)) w

/-- The argument `volume(ndims, sizes) * CV_MAT_CN(type)` of the `DynMem` base. -/
def MatDynMem.countND (cv : CvDefs) (ndims : Int) (sizes : List Int) (type : Int) :
    Except Fault Nat :=
  match MatDynMem.volume ndims sizes with
  | .ok vol => .ok (toSizeT (wrapInt (vol * cv.CV_MAT_CN type)))
  | .error e => .error e

/-- Constructor `MatDynMem(int ndims, const int *sizes, int type)`. -/
def MatDynMem.ctorND {α : Type} (cv : CvDefs) (cufft : Bool) (this : Nat) (p d : Ptr)
    (ndims : Int) (sizes : List Int) (type : Int) (w : World α) :
    Except Fault (World α × MatDynMem) :=
  match MatDynMem.countND cv ndims sizes type with
  | .error e => .error e
  | .ok n =>
    MatDynMem.init cufft this p d n
      (fun hostMem => ⟨sizes.take ndims.toNat, type, hostMem⟩)
      (decide (Int.land type cv.CV_MAT_DEPTH_MASK = cv.CV_32F)) w

/-- The argument `size[0] * size[1] * size[2]` of the `DynMem` base. -/
def MatDynMem.countArr (size : Int × Int × Int) : Nat :=
  toSizeT (wrapInt (wrapInt (size.1 * size.2.1) * size.2.2))

/-- Constructor `MatDynMem(std::array<int, 3> size, int type)`; its body is empty. -/
def MatDynMem.ctorArr {α : Type} (cufft : Bool) (this : Nat) (p d : Ptr)
    (size : Int × Int × Int) (type : Int) (w : World α) :
    Except Fault (World α × MatDynMem) :=
  MatDynMem.init cufft this p d (MatDynMem.countArr size)
    (fun hostMem => ⟨[size.1, size.2.1, size.2.2], type, hostMem⟩) true w

/-- Constructor `MatDynMem(const cv::Mat &other) : DynMem(other.total()), cv::Mat(other) {}`.
The copy constructor of `cv::Mat` copies the header: the new header has the extents,
the type and the data pointer of `other`; no element is copied. -/
def MatDynMem.ctorMat {α : Type} (cufft : Bool) (this : Nat) (p d : Ptr)
    (other : Mat) (w : World α) : Except Fault (World α × MatDynMem) :=
  MatDynMem.init cufft this p d other.total (fun _ => other) true w


/-- A state in which the eight elements of a 2 x 2 two-channel float matrix are stored at
address 100 (integers stand for the float values). -/
def srcWorld : World Int :=
  { heap := fun p =>
      if p = 100 then
        some [some 1, some 2, some 3, some 4, some 5, some 6, some 7, some 8]
      else none
    objs := fun _ => none }

/-- The header of that matrix: extents 2 x 2, type `CV_32FC2 = 13`, data at 100. -/
def srcMat : Mat := ⟨[2, 2], 13, 100⟩

/-- A state with two live buffers of three elements each (`CUFFT` build): object 1 owns
the allocation at 10 (device address 110), object 2 the allocation at 20 (device
address 120). -/
def twoBuffers : World Int :=
  { heap := fun p =>
      if p = 10 then some [some 1, some 2, some 3]
      else if p = 20 then some [some 4, some 5, some 6]
      else none
    objs := fun o =>
      if o = 1 then some ⟨10, 110, 3⟩
      else if o = 2 then some ⟨20, 120, 3⟩
      else none }

/-- The state after `DynMem_ a(3); DynMem_ b(std::move(a));` in the plain build: the
allocation of three elements is at 10, `a` is object 1, `b` is object 2 and its
uninitialised `num_elem` holds 7. -/
def movedWorld : World Int :=
  { heap := Function.update (fun _ => none) 10 (some [none, none, none])
    objs := fun o =>
      if o = 1 then some ⟨0, 0, 3⟩ else if o = 2 then some ⟨10, 0, 7⟩ else none }

/-- Exclusive ownership: no two live buffers hold the same non-null host pointer. -/
def Exclusive {α : Type} (w : World α) : Prop :=
  ∀ o1 o2 b1 b2, w.objs o1 = some b1 → w.objs o2 = some b2 →
    b1.ptr_h ≠ 0 → b1.ptr_h = b2.ptr_h → o1 = o2

/-- No live buffer holds a non-null host pointer to storage that is not allocated. -/
def NoDangling {α : Type} (w : World α) : Prop :=
  ∀ o b, w.objs o = some b → b.ptr_h ≠ 0 → (w.heap b.ptr_h).isSome = true

/-- The states a program reaches from the empty state by constructing buffers,
move-constructing, copy-assigning, move-assigning and destroying them, and by writing
through host pointers. -/
inductive Reachable {α : Type} (cufft : Bool) : World α → Prop where
  | init : Reachable cufft (World.empty α)
  | ctor {w w1 : World α} (this : Nat) (p d : Ptr) (n : Nat) :
      Reachable cufft w → DynMem_.ctor cufft this p d n w = .ok w1 → Reachable cufft w1
  | moveCtor {w w1 : World α} (this other junk : Nat) :
      Reachable cufft w → DynMem_.moveCtor cufft this other junk w = .ok w1 →
      Reachable cufft w1
  | copyAssign {w w1 : World α} (this rhs : Nat) :
      Reachable cufft w → DynMem_.copyAssign this rhs w = .ok w1 → Reachable cufft w1
  | moveAssign {w w1 : World α} (this rhs : Nat) :
      Reachable cufft w → DynMem_.moveAssign cufft this rhs w = .ok w1 → Reachable cufft w1
  | dtor {w w1 : World α} (this : Nat) :
      Reachable cufft w → DynMem_.dtor this w = .ok w1 → Reachable cufft w1
  | store {w w1 : World α} (p : Ptr) (i : Nat) (v : α) :
      Reachable cufft w → store p i v w = .ok w1 → Reachable cufft w1

/-! ## How each operation changes the state -/

theorem ctor_ok {α : Type} {cufft : Bool} {this : Nat} {p d : Ptr} {n : Nat}
    {w w1 : World α} (h : DynMem_.ctor cufft this p d n w = .ok w1) :
    w.objs this = none ∧ p ≠ 0 ∧ w.heap p = none ∧
    w1.heap = Function.update w.heap p (some (List.replicate n none)) ∧
    w1.objs = Function.update w.objs this (some ⟨p, if cufft then d else 0, n⟩) := by
  unfold DynMem_.ctor at h
  split at h
  · cases h
  · split at h
    · cases h
    · rename_i h1 h2
      injection h with h
      subst h
      simp only [not_or] at h2
      refine ⟨?_, h2.1, ?_, rfl, rfl⟩
      · simpa using h1
      · simpa using h2.2.1

theorem ctor_succeeds {α : Type} (cufft : Bool) (this : Nat) (p d : Ptr) (n : Nat)
    (w : World α) (hthis : w.objs this = none) (hp : p ≠ 0) (hfresh : w.heap p = none)
    (hd : cufft = true → d ≠ 0) :
    DynMem_.ctor cufft this p d n w = .ok
      { heap := Function.update w.heap p (some (List.replicate n none))
        objs := Function.update w.objs this (some ⟨p, if cufft then d else 0, n⟩) } := by
  unfold DynMem_.ctor
  rw [if_neg (by simp [hthis]), if_neg]
  simp only [hfresh, Option.isSome_none, not_or, not_and]
  exact ⟨hp, by simp, hd⟩

theorem moveAssign_ok {α : Type} {cufft : Bool} {this rhs : Nat} {w w1 : World α}
    (h : DynMem_.moveAssign cufft this rhs w = .ok w1) :
    ∃ t r, w.objs this = some t ∧ w.objs rhs = some r ∧ w1.heap = w.heap ∧
      ∀ o, w1.objs o =
        if o = rhs then some ⟨0, if cufft then 0 else r.ptr_d, r.num_elem⟩
        else if o = this then some ⟨r.ptr_h, if cufft then r.ptr_d else t.ptr_d, t.num_elem⟩
        else w.objs o := by
  unfold DynMem_.moveAssign at h
  cases ht : w.objs this with
  | none => simp [ht] at h
  | some t =>
    cases hr : w.objs rhs with
    | none => simp [hr] at h
    | some r =>
      refine ⟨t, r, rfl, rfl, ?_⟩
      simp only [ht, hr, Option.isNone_some, Bool.false_eq_true, or_self, if_false] at h
      cases cufft
      · simp only [Bool.false_eq_true, if_false] at h
        injection h with h
        subst h
        refine ⟨rfl, fun o => ?_⟩
        by_cases h1 : o = rhs
        · subst h1
          by_cases h2 : this = o
          · subst h2
            simp_all [World.setPtrH, World.obj]
          · simp [World.setPtrH, World.obj, ht, hr, Function.update, h2, Ne.symm h2]
        · by_cases h2 : o = this
          · subst h2
            simp [World.setPtrH, World.obj, ht, hr, Function.update, h1]
          · simp [World.setPtrH, World.obj, Function.update, h1, h2]
      · simp only [if_true] at h
        injection h with h
        subst h
        refine ⟨rfl, fun o => ?_⟩
        by_cases h1 : o = rhs
        · subst h1
          by_cases h2 : this = o
          · subst h2
            simp_all [World.setPtrH, World.setPtrD, World.obj]
          · simp [World.setPtrH, World.setPtrD, World.obj, ht, hr, Function.update, h2,
              Ne.symm h2]
        · by_cases h2 : o = this
          · subst h2
            simp [World.setPtrH, World.setPtrD, World.obj, ht, hr, Function.update, h1,
              Ne.symm h1]
          · simp [World.setPtrH, World.setPtrD, World.obj, Function.update, h1, h2]

theorem moveCtor_ok {α : Type} {cufft : Bool} {this other junk : Nat} {w w1 : World α}
    (h : DynMem_.moveCtor cufft this other junk w = .ok w1) :
    ∃ r, w.objs this = none ∧ w.objs other = some r ∧ w1.heap = w.heap ∧
      ∀ o, w1.objs o =
        if o = other then some ⟨0, if cufft then 0 else r.ptr_d, r.num_elem⟩
        else if o = this then some ⟨r.ptr_h, if cufft then r.ptr_d else 0, junk⟩
        else w.objs o := by
  unfold DynMem_.moveCtor at h
  cases ht : w.objs this with
  | some t => simp [ht] at h
  | none =>
    cases hr : w.objs other with
    | none => simp [hr] at h
    | some r =>
      refine ⟨r, rfl, rfl, ?_⟩
      have hne : this ≠ other := by
        intro e
        rw [e, hr] at ht
        cases ht
      simp only [ht, hr, Option.isSome_none, Option.isNone_some, Bool.false_eq_true, or_self,
        if_false] at h
      cases cufft
      · simp only [Bool.false_eq_true, if_false] at h
        injection h with h
        subst h
        refine ⟨rfl, fun o => ?_⟩
        by_cases h1 : o = other
        · subst h1
          simp [World.setPtrH, World.obj, hr, Function.update, hne, Ne.symm hne]
        · by_cases h2 : o = this
          · subst h2
            simp [World.setPtrH, World.obj, hr, Function.update, h1, Ne.symm h1]
          · simp [World.setPtrH, World.obj, Function.update, h1, h2]
      · simp only [if_true] at h
        injection h with h
        subst h
        refine ⟨rfl, fun o => ?_⟩
        by_cases h1 : o = other
        · subst h1
          simp [World.setPtrH, World.setPtrD, World.obj, hr, Function.update, hne,
            Ne.symm hne]
        · by_cases h2 : o = this
          · subst h2
            simp [World.setPtrH, World.setPtrD, World.obj, hr, Function.update, h1,
              Ne.symm h1]
          · simp [World.setPtrH, World.setPtrD, World.obj, Function.update, h1, h2]

theorem memcpy_ok {α : Type} {dst src : Ptr} {n : Nat} {heap heap1 : Ptr → Option (Block α)}
    (h : memcpy dst src n heap = .ok heap1) :
    ∃ bd bs, heap dst = some bd ∧ heap src = some bs ∧
      heap1 = Function.update heap dst (some (bs.take n ++ bd.drop n)) := by
  unfold memcpy at h
  split at h
  · cases h
  · split at h
    · rename_i bd bs hd hs
      split at h
      · injection h with h
        exact ⟨bd, bs, hd, hs, h.symm⟩
      · cases h
    · cases h

theorem copyAssign_ok {α : Type} {this rhs : Nat} {w w1 : World α}
    (h : DynMem_.copyAssign this rhs w = .ok w1) :
    w1.objs = w.objs ∧ ∀ p, (w.heap p).isSome = true → (w1.heap p).isSome = true := by
  unfold DynMem_.copyAssign at h
  split at h
  · cases h
  · split at h
    · rename_i heap1 hm
      injection h with h
      subst h
      obtain ⟨bd, bs, hd, _, h1⟩ := memcpy_ok hm
      refine ⟨rfl, fun p hp => ?_⟩
      subst h1
      dsimp only
      by_cases hpe : p = (w.obj this).ptr_h
      · rw [hpe, Function.update_same]
        rfl
      · rw [Function.update_noteq hpe]
        exact hp
    · cases h

theorem store_ok {α : Type} {p : Ptr} {i : Nat} {v : α} {w w1 : World α}
    (h : store p i v w = .ok w1) :
    w1.objs = w.objs ∧ ∃ b, w.heap p = some b ∧
      w1.heap = Function.update w.heap p (some (b.set i (some v))) := by
  unfold store at h
  split at h
  · rename_i b hb
    split at h
    · injection h with h
      subst h
      exact ⟨rfl, b, hb, rfl⟩
    · cases h
  · cases h

theorem dtor_ok {α : Type} {this : Nat} {w w1 : World α}
    (h : DynMem_.dtor this w = .ok w1) :
    ∃ b, w.objs this = some b ∧ w1.objs = Function.update w.objs this none ∧
      (b.ptr_h = 0 → w1.heap = w.heap) ∧
      (b.ptr_h ≠ 0 → (w.heap b.ptr_h).isSome = true ∧
        w1.heap = Function.update w.heap b.ptr_h none) := by
  unfold DynMem_.dtor at h
  split at h
  · cases h
  · rename_i b hb
    refine ⟨b, hb, ?_⟩
    split at h
    · rename_i h0
      injection h with h
      subst h
      exact ⟨rfl, fun _ => rfl, fun hne => absurd h0 hne⟩
    · rename_i h0
      split at h
      · rename_i hl
        injection h with h
        subst h
        exact ⟨rfl, fun e => absurd e h0, fun _ => ⟨hl, rfl⟩⟩
      · cases h

/-! ## Exclusive ownership is an invariant -/

theorem move_keeps_invariant {α : Type} {w w1 : World α} {this rhs : Nat} {r x y : DynMem_}
    (hr : w.objs rhs = some r) (hheap : w1.heap = w.heap)
    (hobjs : ∀ o, w1.objs o =
      if o = rhs then some y else if o = this then some x else w.objs o)
    (hy : y.ptr_h = 0) (hx : x.ptr_h = r.ptr_h)
    (hE : Exclusive w) (hD : NoDangling w) : Exclusive w1 ∧ NoDangling w1 := by
  constructor
  · intro o1 o2 b1 b2 h1 h2 hnz heq
    rw [hobjs] at h1 h2
    by_cases e1 : o1 = rhs
    · rw [if_pos e1] at h1
      injection h1 with h1
      rw [← h1] at hnz
      exact absurd hy hnz
    · rw [if_neg e1] at h1
      by_cases e2 : o2 = rhs
      · rw [if_pos e2] at h2
        injection h2 with h2
        rw [← h2, hy] at heq
        exact absurd heq hnz
      · rw [if_neg e2] at h2
        by_cases t1 : o1 = this
        · rw [if_pos t1] at h1
          injection h1 with h1
          by_cases t2 : o2 = this
          · rw [t1, t2]
          · rw [if_neg t2] at h2
            rw [← h1, hx] at heq hnz
            exact absurd (hE rhs o2 r b2 hr h2 hnz heq).symm e2
        · rw [if_neg t1] at h1
          by_cases t2 : o2 = this
          · rw [if_pos t2] at h2
            injection h2 with h2
            rw [← h2, hx] at heq
            exact absurd (hE o1 rhs b1 r h1 hr hnz heq) e1
          · rw [if_neg t2] at h2
            exact hE o1 o2 b1 b2 h1 h2 hnz heq
  · intro o b h hnz
    rw [hobjs] at h
    rw [hheap]
    by_cases e1 : o = rhs
    · rw [if_pos e1] at h
      injection h with h
      rw [← h] at hnz
      exact absurd hy hnz
    · rw [if_neg e1] at h
      by_cases t1 : o = this
      · rw [if_pos t1] at h
        injection h with h
        rw [← h, hx] at hnz ⊢
        exact hD rhs r hr hnz
      · rw [if_neg t1] at h
        exact hD o b h hnz

theorem reachable_invariant {α : Type} {cufft : Bool} {w : World α}
    (h : Reachable cufft w) : Exclusive w ∧ NoDangling w := by
  induction h with
  | init =>
    constructor
    · intro o1 o2 b1 b2 h1
      cases h1
    · intro o b h1
      cases h1
  | @ctor w w1 this p d n _ hstep ih =>
    obtain ⟨hE, hD⟩ := ih
    obtain ⟨hthis, hp, hfresh, hheap, hobjs⟩ := ctor_ok hstep
    have hold : ∀ o b, w.objs o = some b → b.ptr_h ≠ p := by
      intro o b hb e
      have := hD o b hb (e ▸ hp)
      rw [e, hfresh] at this
      cases this
    constructor
    · intro o1 o2 b1 b2 h1 h2 hnz heq
      rw [hobjs] at h1 h2
      by_cases e1 : o1 = this
      · by_cases e2 : o2 = this
        · rw [e1, e2]
        · rw [e1, Function.update_same] at h1
          rw [Function.update_noteq e2] at h2
          injection h1 with h1
          rw [← h1] at heq
          exact absurd heq.symm (hold o2 b2 h2)
      · rw [Function.update_noteq e1] at h1
        by_cases e2 : o2 = this
        · rw [e2, Function.update_same] at h2
          injection h2 with h2
          rw [← h2] at heq
          exact absurd heq (hold o1 b1 h1)
        · rw [Function.update_noteq e2] at h2
          exact hE o1 o2 b1 b2 h1 h2 hnz heq
    · intro o b hb hnz
      rw [hobjs] at hb
      rw [hheap]
      by_cases e1 : o = this
      · rw [e1, Function.update_same] at hb
        injection hb with hb
        rw [← hb]
        simp
      · rw [Function.update_noteq e1] at hb
        rw [Function.update_noteq (hold o b hb)]
        exact hD o b hb hnz
  | @moveCtor w w1 this other junk _ hstep ih =>
    obtain ⟨r, _, hr, hheap, hobjs⟩ := moveCtor_ok hstep
    exact move_keeps_invariant hr hheap hobjs rfl rfl ih.1 ih.2
  | @copyAssign w w1 this rhs _ hstep ih =>
    obtain ⟨hobjs, hheap⟩ := copyAssign_ok hstep
    constructor
    · intro o1 o2 b1 b2 h1 h2
      rw [hobjs] at h1 h2
      exact ih.1 o1 o2 b1 b2 h1 h2
    · intro o b hb hnz
      rw [hobjs] at hb
      exact hheap _ (ih.2 o b hb hnz)
  | @moveAssign w w1 this rhs _ hstep ih =>
    obtain ⟨t, r, _, hr, hheap, hobjs⟩ := moveAssign_ok hstep
    exact move_keeps_invariant hr hheap hobjs rfl rfl ih.1 ih.2
  | @dtor w w1 this _ hstep ih =>
    obtain ⟨hE, hD⟩ := ih
    obtain ⟨b, hb, hobjs, hnull, hfree⟩ := dtor_ok hstep
    have hsub : ∀ o x, w1.objs o = some x → o ≠ this ∧ w.objs o = some x := by
      intro o x hx
      rw [hobjs] at hx
      by_cases e : o = this
      · rw [e, Function.update_same] at hx
        cases hx
      · rw [Function.update_noteq e] at hx
        exact ⟨e, hx⟩
    constructor
    · intro o1 o2 b1 b2 h1 h2
      exact hE o1 o2 b1 b2 (hsub o1 b1 h1).2 (hsub o2 b2 h2).2
    · intro o x hx hnz
      obtain ⟨hne, hx⟩ := hsub o x hx
      by_cases h0 : b.ptr_h = 0
      · rw [hnull h0]
        exact hD o x hx hnz
      · rw [(hfree h0).2]
        have hpne : x.ptr_h ≠ b.ptr_h := fun e => hne (hE o this x b hx hb hnz e)
        rw [Function.update_noteq hpne]
        exact hD o x hx hnz
  | @store w w1 p i v _ hstep ih =>
    obtain ⟨hobjs, b, hb, hheap⟩ := store_ok hstep
    constructor
    · intro o1 o2 b1 b2 h1 h2
      rw [hobjs] at h1 h2
      exact ih.1 o1 o2 b1 b2 h1 h2
    · intro o x hx hnz
      rw [hobjs] at hx
      rw [hheap]
      by_cases e : x.ptr_h = p
      · rw [e, Function.update_same]
        rfl
      · rw [Function.update_noteq e]
        exact ih.2 o x hx hnz

/-! ## Arithmetic of the element counts -/

theorem wrapInt_of_fits (x : Int) (h0 : 0 ≤ x) (h1 : x < 2147483648) : wrapInt x = x := by
  unfold wrapInt
  omega

theorem toSizeT_of_fits (x : Int) (h0 : 0 ≤ x) (h1 : x < 2147483648) :
    toSizeT x = x.toNat := by
  unfold toSizeT
  omega

theorem volumeFrom_prefix (sizes : List Int)
    (hfit : ∀ j, j ≤ sizes.length →
      0 ≤ (sizes.take j).prod ∧ (sizes.take j).prod < 2147483648) :
    ∀ k i, i + k ≤ sizes.length →
      MatDynMem.volumeFrom sizes k i (sizes.take i).prod = .ok (sizes.take (i + k)).prod := by
  intro k
  induction k with
  | zero =>
    intro i _
    rfl
  | succ k ih =>
    intro i hi
    have hlt : i < sizes.length := by omega
    have hstep : (sizes.take (i + 1)).prod = (sizes.take i).prod * sizes[i] :=
      List.prod_take_succ sizes i hlt
    have hf := hfit (i + 1) (by omega)
    unfold MatDynMem.volumeFrom
    rw [List.getElem?_eq_getElem hlt]
    dsimp only
    rw [← hstep, wrapInt_of_fits _ hf.1 hf.2, ih (i + 1) (by omega)]
    congr 3
    omega

/-! ## The constructors of the view -/

theorem init_of_ctor {α : Type} {cufft : Bool} {this : Nat} {p d : Ptr} {n : Nat}
    {w w1 : World α} (hdr : Ptr → Mat) (check : Bool)
    (h : DynMem_.ctor cufft this p d n w = .ok w1) :
    MatDynMem.init cufft this p d n hdr check w =
      if check then .ok (w1, ⟨this, hdr (DynMem_.hostMem this w1)⟩)
      else .error .assertion := by
  unfold MatDynMem.init
  rw [h]

theorem init_ok {α : Type} {cufft : Bool} {this : Nat} {p d : Ptr} {n : Nat}
    {hdr : Ptr → Mat} {check : Bool} {w w1 : World α} {m : MatDynMem}
    (h : MatDynMem.init cufft this p d n hdr check w = .ok (w1, m)) :
    DynMem_.ctor cufft this p d n w = .ok w1 ∧ check = true ∧
      m = ⟨this, hdr (DynMem_.hostMem this w1)⟩ := by
  unfold MatDynMem.init at h
  split at h
  · cases h
  · rename_i w2 hc
    split at h
    · rename_i hk
      injection h with h
      injection h with h1 h2
      subst h1
      exact ⟨hc, hk, h2.symm⟩
    · cases h

/-- The four shape-driven constructors build their `cv::Mat` base over `hostMem()`:
whenever one of them returns a view, the data pointer of the view is the host pointer of
its own buffer. -/
theorem shape_ctors_data_eq_hostMem {α : Type} (cv : CvDefs) (cufft : Bool) (this : Nat)
    (p d : Ptr) (type : Int) (w w1 : World α) (m : MatDynMem) :
    (∀ size, MatDynMem.ctorSize cv cufft this p d size type w = .ok (w1, m) →
      m.mat.data = DynMem_.hostMem m.dyn w1) ∧
    (∀ height width, MatDynMem.ctorHW cv cufft this p d height width type w = .ok (w1, m) →
      m.mat.data = DynMem_.hostMem m.dyn w1) ∧
    (∀ ndims sizes, MatDynMem.ctorND cv cufft this p d ndims sizes type w = .ok (w1, m) →
      m.mat.data = DynMem_.hostMem m.dyn w1) ∧
    (∀ size, MatDynMem.ctorArr cufft this p d size type w = .ok (w1, m) →
      m.mat.data = DynMem_.hostMem m.dyn w1) := by
  refine ⟨?_, ?_, ?_, ?_⟩
  · intro size h
    obtain ⟨_, _, hm⟩ := init_ok h
    rw [hm]
  · intro height width h
    obtain ⟨_, _, hm⟩ := init_ok h
    rw [hm]
  · intro ndims sizes h
    unfold MatDynMem.ctorND at h
    split at h
    · cases h
    · obtain ⟨_, _, hm⟩ := init_ok h
      rw [hm]
  · intro size h
    obtain ⟨_, _, hm⟩ := init_ok h
    rw [hm]

/-- The three constructors with an `assert` return a view only for a float format, and
fail the assertion for any other format once their base is constructed. -/
theorem asserting_ctors_check_depth {α : Type} (cv : CvDefs) (cufft : Bool) (this : Nat)
    (p d : Ptr) (type : Int) (w w1 : World α) :
    (∀ size, DynMem_.ctor cufft this p d (MatDynMem.countSize cv size type) w = .ok w1 →
      MatDynMem.ctorSize cv cufft this p d size type w =
        if Int.land type cv.CV_MAT_DEPTH_MASK = cv.CV_32F
        then .ok (w1, ⟨this, ⟨[size.height, size.width], type, DynMem_.hostMem this w1⟩⟩)
        else .error .assertion) ∧
    (∀ height width,
      DynMem_.ctor cufft this p d (MatDynMem.countHW cv height width type) w = .ok w1 →
      MatDynMem.ctorHW cv cufft this p d height width type w =
        if Int.land type cv.CV_MAT_DEPTH_MASK = cv.CV_32F
        then .ok (w1, ⟨this, ⟨[height, width], type, DynMem_.hostMem this w1⟩⟩)
        else .error .assertion) ∧
    (∀ ndims sizes n, MatDynMem.countND cv ndims sizes type = .ok n →
      DynMem_.ctor cufft this p d n w = .ok w1 →
      MatDynMem.ctorND cv cufft this p d ndims sizes type w =
        if Int.land type cv.CV_MAT_DEPTH_MASK = cv.CV_32F
        then .ok (w1, ⟨this, ⟨sizes.take ndims.toNat, type, DynMem_.hostMem this w1⟩⟩)
        else .error .assertion) := by
  refine ⟨?_, ?_, ?_⟩
  · intro size h
    unfold MatDynMem.ctorSize
    rw [init_of_ctor _ _ h]
    by_cases hdepth : Int.land type cv.CV_MAT_DEPTH_MASK = cv.CV_32F <;> simp [hdepth]
  · intro height width h
    unfold MatDynMem.ctorHW
    rw [init_of_ctor _ _ h]
    by_cases hdepth : Int.land type cv.CV_MAT_DEPTH_MASK = cv.CV_32F <;> simp [hdepth]
  · intro ndims sizes n hn h
    unfold MatDynMem.ctorND
    rw [hn]
    dsimp only
    rw [init_of_ctor _ _ h]
    by_cases hdepth : Int.land type cv.CV_MAT_DEPTH_MASK = cv.CV_32F <;> simp [hdepth]

/-! ## The claims -/

/-- C7, as stated, fails: for the two non-negative extents `65536, 65536` and the
single-channel float format the product of the extents times the channel count is
`4294967296`, but `volume` computes in `int`, returns `0`, and the N-dimensional
constructor allocates a buffer of `0` elements. -/
theorem ctorND_count_overflow :
    MatDynMem.volume 2 [65536, 65536] = .ok 0 ∧
    ([65536, 65536] : List Int).prod * opencv.CV_MAT_CN 5 = 4294967296 ∧
    ∃ w1 m, MatDynMem.ctorND opencv false 0 1 0 2 [65536, 65536] 5 (World.empty Nat)
        = .ok (w1, m) ∧
      (w1.objs m.dyn).map DynMem_.num_elem = some 0 ∧
      (w1.heap (DynMem_.hostMem m.dyn w1)).map List.length = some 0 :=
  ⟨rfl, by decide, _, _, rfl, by decide, by decide⟩

/-- C7, amended: for every rank `ndims >= 0`, every array `sizes` of `ndims` non-negative
extents and every element format, if every product of a prefix of the extents and the
product of all extents times the (non-negative) channel count stay below `2^31`, so that
no `int` operation overflows, then `volume` returns the product of the extents (`1` for
rank 0) and the N-dimensional constructor, given a successful allocation at `p`,
constructs its buffer with exactly `product * CV_MAT_CN(type)` elements; the constructor
then returns the view over that buffer when the format is float and fails its assertion
otherwise. -/
theorem ctorND_count {α : Type} (cv : CvDefs) (cufft : Bool) (this : Nat) (p d : Ptr)
    (ndims : Int) (sizes : List Int) (type : Int) (w : World α)
    (hlen : (sizes.length : Int) = ndims) (hnn : ∀ s ∈ sizes, 0 ≤ s)
    (hfit : ∀ k, k ≤ sizes.length → (sizes.take k).prod < 2147483648)
    (hcn : 0 ≤ cv.CV_MAT_CN type)
    (hfitc : sizes.prod * cv.CV_MAT_CN type < 2147483648)
    (hthis : w.objs this = none) (hp : p ≠ 0) (hfresh : w.heap p = none)
    (hd : cufft = true → d ≠ 0) :
    MatDynMem.volume ndims sizes = .ok sizes.prod ∧
    MatDynMem.countND cv ndims sizes type = .ok (sizes.prod * cv.CV_MAT_CN type).toNat ∧
    ∃ w1, DynMem_.ctor cufft this p d (sizes.prod * cv.CV_MAT_CN type).toNat w = .ok w1 ∧
      (w1.objs this).map DynMem_.num_elem = some (sizes.prod * cv.CV_MAT_CN type).toNat ∧
      (w1.heap (DynMem_.hostMem this w1)).map List.length
        = some (sizes.prod * cv.CV_MAT_CN type).toNat ∧
      MatDynMem.ctorND cv cufft this p d ndims sizes type w =
        if Int.land type cv.CV_MAT_DEPTH_MASK = cv.CV_32F
        then .ok (w1, ⟨this, ⟨sizes, type, p⟩⟩) else .error .assertion := by
  have hpre : ∀ j, j ≤ sizes.length →
      0 ≤ (sizes.take j).prod ∧ (sizes.take j).prod < 2147483648 := by
    intro j hj
    refine ⟨List.prod_nonneg fun a ha => hnn a (List.mem_of_mem_take ha), hfit j hj⟩
  have hnat : ndims.toNat = sizes.length := by omega
  have hvol : MatDynMem.volume ndims sizes = .ok sizes.prod := by
    have h := volumeFrom_prefix sizes hpre sizes.length 0 (by omega)
    simp only [List.take_zero, List.prod_nil, Nat.zero_add, List.take_length] at h
    unfold MatDynMem.volume
    rw [hnat]
    exact h
  have hprod0 : 0 ≤ sizes.prod := List.prod_nonneg hnn
  have hcount : MatDynMem.countND cv ndims sizes type
      = .ok (sizes.prod * cv.CV_MAT_CN type).toNat := by
    unfold MatDynMem.countND
    rw [hvol]
    dsimp only
    rw [wrapInt_of_fits _ (Int.mul_nonneg hprod0 hcn) hfitc,
      toSizeT_of_fits _ (Int.mul_nonneg hprod0 hcn) hfitc]
  have hctor := ctor_succeeds cufft this p d (sizes.prod * cv.CV_MAT_CN type).toNat w
    hthis hp hfresh hd
  have hhost : DynMem_.hostMem this
      ({ heap := Function.update w.heap p
            (some (List.replicate (sizes.prod * cv.CV_MAT_CN type).toNat none))
         objs := Function.update w.objs this
            (some ⟨p, if cufft then d else 0, (sizes.prod * cv.CV_MAT_CN type).toNat⟩) } :
        World α) = p := by
    simp [DynMem_.hostMem, World.obj]
  refine ⟨hvol, hcount, _, hctor, ?_, ?_, ?_⟩
  · simp
  · rw [hhost]
    simp
  · unfold MatDynMem.ctorND
    rw [hcount]
    dsimp only
    unfold MatDynMem.init
    rw [hctor]
    dsimp only
    rw [hhost, hnat, List.take_length]
    by_cases hdepth : Int.land type cv.CV_MAT_DEPTH_MASK = cv.CV_32F
    · simp [hdepth]
    · simp [hdepth]

/-- Witness of `ctorND_count`: a 3 x 4 two-channel float matrix. -/
theorem ctorND_count_witness :
    MatDynMem.volume 2 [3, 4] = .ok 12 ∧
    MatDynMem.countND opencv 2 [3, 4] 13 = .ok 24 ∧
    ∃ w1, DynMem_.ctor false 0 1 0 24 (World.empty Nat) = .ok w1 ∧
      (w1.objs 0).map DynMem_.num_elem = some 24 ∧
      (w1.heap (DynMem_.hostMem 0 w1)).map List.length = some 24 ∧
      MatDynMem.ctorND opencv false 0 1 0 2 [3, 4] 13 (World.empty Nat) =
        if Int.land 13 opencv.CV_MAT_DEPTH_MASK = opencv.CV_32F
        then .ok (w1, ⟨0, ⟨[3, 4], 13, 1⟩⟩) else .error .assertion :=
  ctorND_count opencv false 0 1 0 2 [3, 4] 13 (World.empty Nat) (by decide) (by decide)
    (by decide) (by decide) (by decide) rfl (by decide) rfl (by decide)

/-- C1: at `height = 3`, `width = 4`, `type = CV_32FC2` the claim asks for a buffer of
`4 * 3 * 2 = 24` elements; the constructor `MatDynMem(height, width, type)` multiplies
the count by `sizeof(float)` and constructs a buffer of `96` elements. -/
theorem ctorHW_count_has_sizeof_factor :
    (4 : Int) * 3 * opencv.CV_MAT_CN 13 = 24 ∧
    MatDynMem.countHW opencv 3 4 13 = 96 ∧
    ∃ w1 m, MatDynMem.ctorHW opencv false 0 1 0 3 4 13 (World.empty Nat) = .ok (w1, m) ∧
      (w1.objs m.dyn).map DynMem_.num_elem = some 96 ∧
      (w1.heap (DynMem_.hostMem m.dyn w1)).map List.length = some 96 :=
  ⟨by decide, by decide, _, _, rfl, by decide, by decide⟩

/-- C2: for the 2 x 2 two-channel matrix `srcMat` the product of the extents times the
channel count is `8`; `MatDynMem(const cv::Mat&)` sizes its buffer with `other.total()`,
which does not count channels, and constructs a buffer of `4` elements. -/
theorem ctorMat_count_ignores_channels :
    srcMat.sizes.prod * opencv.CV_MAT_CN srcMat.type = 8 ∧
    srcMat.total = 4 ∧
    ∃ w1 m, MatDynMem.ctorMat false 0 200 0 srcMat srcWorld = .ok (w1, m) ∧
      (w1.objs m.dyn).map DynMem_.num_elem = some 4 ∧
      (w1.heap (DynMem_.hostMem m.dyn w1)).map List.length = some 4 :=
  ⟨by decide, by decide, _, _, rfl, by decide, by decide⟩

/-- C3: the view that `MatDynMem(const cv::Mat&)` builds from `srcMat` has the data
pointer of the source (`100`), not the host pointer of its own buffer (`200`). -/
theorem ctorMat_data_is_not_hostMem :
    ∃ w1 m, MatDynMem.ctorMat false 0 200 0 srcMat srcWorld = .ok (w1, m) ∧
      m.mat.data = 100 ∧ DynMem_.hostMem m.dyn w1 = 200 ∧
      m.mat.data ≠ DynMem_.hostMem m.dyn w1 :=
  ⟨_, _, rfl, by decide, by decide, by decide⟩

/-- C6: `MatDynMem(std::array<int, 3>, int type)` has no assertion: with the extents
`2, 3, 4` and `type = CV_64FC1 = 6`, whose depth is not `CV_32F`, it returns a view,
while the N-dimensional constructor fails its assertion on the same extents and type. -/
theorem ctorArr_asserts_nothing :
    Int.land 6 opencv.CV_MAT_DEPTH_MASK ≠ opencv.CV_32F ∧
    (∃ w1 m, MatDynMem.ctorArr false 0 1 0 (2, 3, 4) 6 (World.empty Nat) = .ok (w1, m) ∧
      m.mat.type = 6) ∧
    MatDynMem.ctorND opencv false 0 1 0 3 [2, 3, 4] 6 (World.empty Nat)
      = .error .assertion :=
  ⟨by decide, ⟨_, _, rfl, by decide⟩, rfl⟩

/-- C8: after `MatDynMem(const cv::Mat&)` on `srcMat` the buffer of the view holds four
indeterminate cells, none of the source's values; the view's data pointer is the
source's, it reads the source's storage, and a later write to the source changes what
the view reads. -/
theorem ctorMat_copies_nothing :
    ∃ w1 m, MatDynMem.ctorMat false 0 200 0 srcMat srcWorld = .ok (w1, m) ∧
      w1.heap (DynMem_.hostMem m.dyn w1) = some [none, none, none, none] ∧
      m.mat.data = srcMat.data ∧
      load m.mat.data 0 w1 = .ok 1 ∧
      ∃ w2, store srcMat.data 0 99 w1 = .ok w2 ∧ load m.mat.data 0 w2 = .ok 99 :=
  ⟨_, _, rfl, by decide, by decide, rfl, _, rfl, rfl⟩

/-- C9: a buffer of 3 elements at address 10 is move-assigned to a buffer of 5 elements:
the destination then holds the pointer 10 to the allocation of 3 elements, but its
`num_elem` is still 5.  Move-constructing from the 3-element buffer gives a buffer with
the pointer 10 whose `num_elem` is whatever the uninitialised member holds (here 7). -/
theorem move_leaves_num_elem_stale :
    (∃ w1 w2 w3, DynMem_.ctor false 1 10 0 3 (World.empty Nat) = .ok w1 ∧
      DynMem_.ctor false 2 20 0 5 w1 = .ok w2 ∧
      DynMem_.moveAssign false 2 1 w2 = .ok w3 ∧
      w3.objs 2 = some ⟨10, 0, 5⟩ ∧ (w3.heap 10).map List.length = some 3) ∧
    (∃ w1 w2, DynMem_.ctor false 1 10 0 3 (World.empty Nat) = .ok w1 ∧
      DynMem_.moveCtor false 2 1 7 w1 = .ok w2 ∧
      w2.objs 2 = some ⟨10, 0, 7⟩ ∧ (w2.heap 10).map List.length = some 3) :=
  ⟨⟨_, _, _, rfl, rfl, rfl, by decide, by decide⟩,
    ⟨_, _, rfl, rfl, by decide, by decide⟩⟩

theorem moveCtor_succeeds {α : Type} (cufft : Bool) (this other junk : Nat) (w : World α)
    (b1 : DynMem_) (hsrc : w.objs other = some b1) (hfresh : w.objs this = none) :
    ∃ w1, DynMem_.moveCtor cufft this other junk w = .ok w1 := by
  unfold DynMem_.moveCtor
  rw [if_neg (by simp [hsrc, hfresh])]
  cases cufft
  · exact ⟨_, rfl⟩
  · exact ⟨_, rfl⟩

theorem moveAssign_succeeds {α : Type} (cufft : Bool) (this rhs : Nat) (w : World α)
    (b1 : DynMem_) (hsrc : w.objs rhs = some b1) (hlive : (w.objs this).isSome = true) :
    ∃ w1, DynMem_.moveAssign cufft this rhs w = .ok w1 := by
  unfold DynMem_.moveAssign
  rw [if_neg (by simp [hsrc, Option.isSome_iff_ne_none.mp hlive])]
  cases cufft
  · exact ⟨_, rfl⟩
  · exact ⟨_, rfl⟩

/-- C4: let `b1` be the members of a live buffer `other`.  Move-constructing a new buffer
`fresh` from `other`, and move-assigning `other` to a different live buffer `this`, both
succeed, leave the host pointer of `other` null and give the destination exactly the
host pointer `b1.ptr_h`; in the `CUFFT` build the same holds for the device pointer. -/
theorem move_transfers_pointers {α : Type} (cufft : Bool) (fresh this other junk : Nat)
    (b1 : DynMem_) (w : World α)
    (hsrc : w.objs other = some b1) (hfresh : w.objs fresh = none)
    (hlive : (w.objs this).isSome = true) (hne : this ≠ other) :
    (∃ w1, DynMem_.moveCtor cufft fresh other junk w = .ok w1 ∧
      (w1.objs other).map DynMem_.ptr_h = some 0 ∧
      (w1.objs fresh).map DynMem_.ptr_h = some b1.ptr_h ∧
      (cufft = true → (w1.objs other).map DynMem_.ptr_d = some 0 ∧
        (w1.objs fresh).map DynMem_.ptr_d = some b1.ptr_d)) ∧
    (∃ w1, DynMem_.moveAssign cufft this other w = .ok w1 ∧
      (w1.objs other).map DynMem_.ptr_h = some 0 ∧
      (w1.objs this).map DynMem_.ptr_h = some b1.ptr_h ∧
      (cufft = true → (w1.objs other).map DynMem_.ptr_d = some 0 ∧
        (w1.objs this).map DynMem_.ptr_d = some b1.ptr_d)) := by
  constructor
  · obtain ⟨w1, h1⟩ := moveCtor_succeeds cufft fresh other junk w b1 hsrc hfresh
    obtain ⟨r, _, hr, _, hobjs⟩ := moveCtor_ok h1
    have hfo : fresh ≠ other := by
      intro e
      rw [e, hsrc] at hfresh
      cases hfresh
    rw [hsrc] at hr
    injection hr with hr
    subst hr
    refine ⟨w1, h1, ?_, ?_, ?_⟩
    · rw [hobjs, if_pos rfl]
      rfl
    · rw [hobjs, if_neg hfo, if_pos rfl]
      rfl
    · intro hc
      rw [hobjs other, hobjs fresh, if_pos rfl, if_neg hfo, if_pos rfl, hc]
      exact ⟨rfl, rfl⟩
  · obtain ⟨w1, h1⟩ := moveAssign_succeeds cufft this other w b1 hsrc hlive
    obtain ⟨t, r, _, hr, _, hobjs⟩ := moveAssign_ok h1
    rw [hsrc] at hr
    injection hr with hr
    subst hr
    refine ⟨w1, h1, ?_, ?_, ?_⟩
    · rw [hobjs, if_pos rfl]
      rfl
    · rw [hobjs, if_neg hne, if_pos rfl]
      rfl
    · intro hc
      rw [hobjs other, hobjs this, if_pos rfl, if_neg hne, if_pos rfl, hc]
      exact ⟨rfl, rfl⟩

/-- Witness of `move_transfers_pointers`: in `twoBuffers` (`CUFFT` build) buffer 1 is
moved into the new buffer 3 and into the live buffer 2. -/
theorem move_transfers_pointers_witness :
    (twoBuffers.objs 1 = some ⟨10, 110, 3⟩ ∧ twoBuffers.objs 3 = none ∧
      (twoBuffers.objs 2).isSome = true ∧ 2 ≠ 1) ∧
    (∃ w1, DynMem_.moveCtor true 3 1 7 twoBuffers = .ok w1 ∧
      (w1.objs 1).map DynMem_.ptr_h = some 0 ∧
      (w1.objs 3).map DynMem_.ptr_h = some 10 ∧
      (true = true → (w1.objs 1).map DynMem_.ptr_d = some 0 ∧
        (w1.objs 3).map DynMem_.ptr_d = some 110)) ∧
    (∃ w1, DynMem_.moveAssign true 2 1 twoBuffers = .ok w1 ∧
      (w1.objs 1).map DynMem_.ptr_h = some 0 ∧
      (w1.objs 2).map DynMem_.ptr_h = some 10 ∧
      (true = true → (w1.objs 1).map DynMem_.ptr_d = some 0 ∧
        (w1.objs 2).map DynMem_.ptr_d = some 110)) :=
  ⟨⟨rfl, rfl, rfl, by decide⟩,
    move_transfers_pointers true 3 2 1 7 ⟨10, 110, 3⟩ twoBuffers rfl rfl rfl (by decide)⟩

/-- C5: let `this` and `rhs` be two distinct live buffers with members `b2` and `b1`,
with equal `num_elem`, each owning a live allocation of `num_elem` elements (`blk2` and
`blk1`), in a state with exclusive ownership.  The copy-assignment `this = rhs` succeeds;
afterwards the storage of `this` holds exactly the cells `blk1` of `rhs`, the storage of
`rhs` is unchanged, no buffer object has changed, so both keep their host pointers, which
are distinct, and a later write through either host pointer leaves the storage of the
other buffer as it was. -/
theorem copyAssign_copies {α : Type} (this rhs : Nat) (b1 b2 : DynMem_)
    (blk1 blk2 : Block α) (w : World α)
    (hne : this ≠ rhs) (h2 : w.objs this = some b2) (h1 : w.objs rhs = some b1)
    (hcount : b2.num_elem = b1.num_elem) (hp1 : b1.ptr_h ≠ 0) (hp2 : b2.ptr_h ≠ 0)
    (hblk1 : w.heap b1.ptr_h = some blk1) (hlen1 : blk1.length = b1.num_elem)
    (hblk2 : w.heap b2.ptr_h = some blk2) (hlen2 : blk2.length = b2.num_elem)
    (hexcl : Exclusive w) :
    ∃ w1, DynMem_.copyAssign this rhs w = .ok w1 ∧
      w1.heap b2.ptr_h = some blk1 ∧
      w1.heap b1.ptr_h = some blk1 ∧
      w1.objs = w.objs ∧
      b1.ptr_h ≠ b2.ptr_h ∧
      (∀ i v w2, store b2.ptr_h i v w1 = .ok w2 → w2.heap b1.ptr_h = some blk1) ∧
      (∀ i v w2, store b1.ptr_h i v w1 = .ok w2 → w2.heap b2.ptr_h = some blk1) := by
  have hptr : b1.ptr_h ≠ b2.ptr_h := fun e => hne (hexcl rhs this b1 b2 h1 h2 hp1 e).symm
  have hcopy : blk1.take b2.num_elem ++ blk2.drop b2.num_elem = blk1 := by
    rw [List.take_of_length_le (by omega), List.drop_of_length_le (by omega),
      List.append_nil]
  have hstep : DynMem_.copyAssign this rhs w = .ok
      { w with heap := Function.update w.heap b2.ptr_h (some blk1) } := by
    unfold DynMem_.copyAssign
    rw [if_neg (by simp [h1, h2])]
    have ho2 : w.obj this = b2 := by simp [World.obj, h2]
    have ho1 : w.obj rhs = b1 := by simp [World.obj, h1]
    rw [ho1, ho2]
    unfold memcpy
    rw [if_neg (by
      simp only [not_or, not_and]
      exact ⟨hp2, hp1, fun e => absurd e.symm hptr⟩)]
    rw [hblk1, hblk2]
    dsimp only
    rw [if_pos ⟨by omega, by omega⟩, hcopy]
  refine ⟨_, hstep, ?_, ?_, rfl, hptr, ?_, ?_⟩
  · exact Function.update_same _ _ _
  · show Function.update w.heap b2.ptr_h (some blk1) b1.ptr_h = some blk1
    rw [Function.update_noteq hptr]
    exact hblk1
  · intro i v w2 hst
    obtain ⟨_, b, _, hheap⟩ := store_ok hst
    rw [hheap, Function.update_noteq hptr]
    show Function.update w.heap b2.ptr_h (some blk1) b1.ptr_h = some blk1
    rw [Function.update_noteq hptr]
    exact hblk1
  · intro i v w2 hst
    obtain ⟨_, b, _, hheap⟩ := store_ok hst
    rw [hheap, Function.update_noteq (Ne.symm hptr)]
    exact Function.update_same _ _ _

theorem twoBuffers_exclusive : Exclusive twoBuffers := by
  intro o1 o2 b1 b2 h1 h2 _ heq
  simp only [twoBuffers] at h1 h2
  split_ifs at h1 h2 <;>
    (injection h1 with h1; injection h2 with h2; subst h1; subst h2;
     first | omega | exact absurd heq (by decide))

/-- Witness of `copyAssign_copies`: in `twoBuffers` buffer 1 is copy-assigned to
buffer 2. -/
theorem copyAssign_copies_witness :
    (2 ≠ 1 ∧ twoBuffers.objs 2 = some ⟨20, 120, 3⟩ ∧
      twoBuffers.objs 1 = some ⟨10, 110, 3⟩ ∧
      twoBuffers.heap 10 = some [some 1, some 2, some 3] ∧
      twoBuffers.heap 20 = some [some 4, some 5, some 6]) ∧
    ∃ w1, DynMem_.copyAssign 2 1 twoBuffers = .ok w1 ∧
      w1.heap 20 = some [some 1, some 2, some 3] ∧
      w1.heap 10 = some [some 1, some 2, some 3] ∧
      w1.objs = twoBuffers.objs ∧
      (10 : Ptr) ≠ 20 ∧
      (∀ i v w2, store 20 i v w1 = .ok w2 → w2.heap 10 = some [some 1, some 2, some 3]) ∧
      (∀ i v w2, store 10 i v w1 = .ok w2 → w2.heap 20 = some [some 1, some 2, some 3]) :=
  ⟨⟨by decide, rfl, rfl, rfl, rfl⟩,
    copyAssign_copies 2 1 ⟨10, 110, 3⟩ ⟨20, 120, 3⟩ [some 1, some 2, some 3]
      [some 4, some 5, some 6] twoBuffers (by decide) rfl rfl rfl (by decide) (by decide)
      rfl rfl rfl rfl twoBuffers_exclusive⟩

/-- C10: in every state reachable from the empty state by constructions,
move-constructions, copy-assignments, move-assignments, destructions (and writes through
host pointers) no two live buffers hold the same non-null host pointer.  Destroying any
live buffer `o` is defined there: a buffer whose host pointer is null (a moved-from one)
releases nothing, the heap is unchanged; otherwise its pointer names a live allocation,
that allocation is released, and no buffer that is still live holds the released
address, so nothing can release that allocation again. -/
theorem reachable_exclusive_ownership {α : Type} (cufft : Bool) (w : World α)
    (h : Reachable cufft w) :
    Exclusive w ∧
    ∀ o b, w.objs o = some b →
      ∃ w1, DynMem_.dtor o w = .ok w1 ∧
        (b.ptr_h = 0 → w1.heap = w.heap) ∧
        (b.ptr_h ≠ 0 → (w.heap b.ptr_h).isSome = true ∧ w1.heap b.ptr_h = none ∧
          ∀ o2 b2, w1.objs o2 = some b2 → b2.ptr_h ≠ b.ptr_h) := by
  obtain ⟨hE, hD⟩ := reachable_invariant h
  refine ⟨hE, fun o b hb => ?_⟩
  by_cases h0 : b.ptr_h = 0
  · refine ⟨{ w with objs := Function.update w.objs o none }, ?_, fun _ => rfl,
      fun hne => absurd h0 hne⟩
    unfold DynMem_.dtor
    rw [hb]
    dsimp only
    rw [if_pos h0]
  · have hl := hD o b hb h0
    refine ⟨{ heap := Function.update w.heap b.ptr_h none
              objs := Function.update w.objs o none }, ?_, fun e => absurd e h0,
      fun _ => ⟨hl, Function.update_same _ _ _, ?_⟩⟩
    · unfold DynMem_.dtor
      rw [hb]
      dsimp only
      rw [if_neg h0, if_pos hl]
    · intro o2 b2 h2 e
      by_cases eo : o2 = o
      · rw [eo] at h2
        have : Function.update w.objs o none o = some b2 := h2
        rw [Function.update_same] at this
        cases this
      · have : Function.update w.objs o none o2 = some b2 := h2
        rw [Function.update_noteq eo] at this
        exact eo (hE o2 o b2 b this hb (e ▸ h0) e)

theorem movedWorld_reachable : Reachable false movedWorld := by
  have h1 : Reachable false
      ({ heap := Function.update (fun _ => none) 10 (some [none, none, none])
         objs := Function.update (fun _ => none) 1 (some ⟨10, 0, 3⟩) } : World Int) :=
    Reachable.ctor 1 10 0 3 Reachable.init rfl
  refine Reachable.moveCtor 2 1 7 h1 ?_
  unfold DynMem_.moveCtor
  rw [if_neg (by simp [Function.update])]
  simp only [Bool.false_eq_true, if_false, movedWorld, World.setPtrH, World.obj]
  congr 2
  funext o
  by_cases e1 : o = 1
  · subst e1
    simp [Function.update]
  · by_cases e2 : o = 2
    · subst e2
      simp [Function.update]
    · simp [Function.update, e1, e2]

/-- Witness of `reachable_exclusive_ownership`: the state after
`DynMem_ a(3); DynMem_ b(std::move(a));`. -/
theorem reachable_exclusive_ownership_witness :
    Reachable false movedWorld ∧
    (Exclusive movedWorld ∧
      ∀ o b, movedWorld.objs o = some b →
        ∃ w1, DynMem_.dtor o movedWorld = .ok w1 ∧
          (b.ptr_h = 0 → w1.heap = movedWorld.heap) ∧
          (b.ptr_h ≠ 0 → (movedWorld.heap b.ptr_h).isSome = true ∧
            w1.heap b.ptr_h = none ∧
            ∀ o2 b2, w1.objs o2 = some b2 → b2.ptr_h ≠ b.ptr_h)) :=
  ⟨movedWorld_reachable, reachable_exclusive_ownership false movedWorld movedWorld_reachable⟩

end Kcf
